import Mathlib

/-
Shallow embedding of the library-management backend
(src/backend/models/Transcation.js plus the Book and Payment schemas).

Modelling decisions, each traceable to the source:
* Dates are milliseconds since the Unix epoch (`Int`), matching JS `Date`
  arithmetic.  Both `new Date()` calls inside one request handler are taken at
  the same instant `now`; the process runs in a fixed-offset timezone (no DST),
  so `dueDate.setDate(borrowDate.getDate() + days)` adds exactly
  `days * 86400000` milliseconds.
* The `available` field of the Book schema is declared `type: Boolean,
  default: true`, while the routes use it numerically.  We therefore model the
  stored value as a `BsonVal` (boolean or number) and reproduce the exact
  JS / mongoose / MongoDB semantics at each use:
  - `book.available <= 0` coerces the value to a number (`false` is 0,
    `true` is 1);
  - `book.available -= 1` computes the number and the mongoose Boolean
    setter casts it back (0 becomes `false`, 1 becomes `true`, anything else
    is a CastError which makes `save()` reject);
  - `Book.findByIdAndUpdate(id, { $inc: { available: 1 } })` is a MongoDB
    `$inc`, which errors with TypeMismatch when the stored value is a
    boolean ("Cannot apply $inc to a value of non-numeric type").
* `await doc.save()` re-runs mongoose validation on the whole document:
  `required` on a String path rejects the empty string, and `enum` paths must
  hold a listed value.  Update queries (`findByIdAndUpdate`) do not run
  validators (mongoose default), and a `findByIdAndUpdate` whose id does not
  match is a silent no-op.
* Each route handler is a pure function from `now`, the request fields and the
  database state to a `RouteResult` holding the HTTP status, the error message
  (if any), the new database state, and the id of a freshly created record
  (if any).  The `isDBConnected` 503 guard on the book routes models the
  storage as connected.  Document ids are `Nat`, drawn from a single fresh
  counter.
-/

/-- Milliseconds in one day, the `1000 * 60 * 60 * 24` of the fine formula. -/
def msPerDay : Int := 86400000

/-- Whitespace trimming as performed by the mongoose `trim: true` setters
(JS `String.prototype.trim`): drop leading and trailing whitespace. -/
def jsTrim (s : String) : String :=
  String.mk (((s.data.dropWhile Char.isWhitespace).reverse.dropWhile Char.isWhitespace).reverse)

/-- Value stored in a BSON field that the routes use both as a boolean and as
a number (the Book `available` field): either a boolean or a number. -/
inductive BsonVal where
  | bool (b : Bool)
  | num (n : Int)
deriving DecidableEq, Repr

/-- JS ToNumber coercion as applied by `book.available <= 0` and
`book.available -= 1`: `false` is 0, `true` is 1, a number is itself. -/
def jsToNumber : BsonVal → Int
  | .bool true => 1
  | .bool false => 0
  | .num n => n

/-- Mongoose cast of an assigned number to a schema path of type Boolean:
0 casts to `false`, 1 casts to `true`, any other number is a CastError that
makes the subsequent `save()` reject. -/
def mongooseBoolCast (n : Int) : Except String BsonVal :=
  if n = 0 then .ok (.bool false)
  else if n = 1 then .ok (.bool true)
  else .error ("CastError: Cast to Boolean failed")

/-- MongoDB `$inc` applied to a stored field value: adds when the stored value
is numeric, errors with TypeMismatch when it is a boolean. -/
def mongoInc : BsonVal → Int → Except String BsonVal
  | .num n, k => .ok (.num (n + k))
  | .bool _, _ => .error ("Cannot apply $inc to a value of non-numeric type")

/-- Embedded student subdocument of the transaction schema. -/
structure Student where
  studentId : String
  name : String
  department : String
deriving DecidableEq, Repr

/-- Book document (bookSchema). -/
structure Book where
  title : String
  author : String
  isbn : Option String
  genre : String
  available : BsonVal
  addedDate : Int
deriving DecidableEq, Repr

/-- Transaction document (transactionSchema). -/
structure Transaction where
  book : Nat
  student : Student
  borrowDate : Int
  dueDate : Int
  returnDate : Option Int
  status : String
  fineAmount : Int
  finePaid : Bool
  finePaidDate : Option Int
  daysLate : Int
  createdDate : Int
deriving DecidableEq, Repr

/-- Payment document (paymentSchema). -/
structure Payment where
  transactionId : Nat
  studentId : String
  studentName : String
  amount : Int
  upiId : String
  paymentStatus : String
  paymentMethod : String
  utrNumber : Option String
  paymentDate : Option Int
  createdDate : Int
deriving DecidableEq, Repr

/-- Database state: the three collections plus a fresh-id counter. -/
structure DB where
  books : List (Nat × Book)
  transactions : List (Nat × Transaction)
  payments : List (Nat × Payment)
  nextId : Nat
deriving DecidableEq, Repr

/-- Model.findById: first association-list entry with the given key. -/
def findById (k : Nat) : List (Nat × α) → Option α
  | [] => none
  | e :: rest => if e.1 = k then some e.2 else findById k rest

/-- Persisting a changed document: replace the first entry with the given key
(ids are unique in MongoDB, so at most one entry matches). -/
def updateAssoc : List (Nat × α) → Nat → α → List (Nat × α)
  | [], _, _ => []
  | e :: rest, k, v => if e.1 = k then (k, v) :: rest else e :: updateAssoc rest k v

/-- Mongoose `required` on the three String paths of the embedded student
subdocument: a String value is present only when nonempty. -/
def validStudent (s : Student) : Prop :=
  s.studentId ≠ "" ∧ s.name ≠ "" ∧ s.department ≠ ""

instance (s : Student) : Decidable (validStudent s) := by
  unfold validStudent; infer_instance

/-- Transaction `status` enum of the schema. -/
def statusOk (s : String) : Prop :=
  s = "borrowed" ∨ s = "returned" ∨ s = "overdue" ∨ s = "returned_late"

instance (s : String) : Decidable (statusOk s) := by
  unfold statusOk; infer_instance

/-- Full-document validation run by `transaction.save()`. -/
def validTxn (t : Transaction) : Prop :=
  validStudent t.student ∧ statusOk t.status

instance (t : Transaction) : Decidable (validTxn t) := by
  unfold validTxn; infer_instance

/-- Book validation run by `book.save()`: title and author are `required`
(and stored trimmed). -/
def validBook (b : Book) : Prop :=
  b.title ≠ "" ∧ b.author ≠ ""

instance (b : Book) : Decidable (validBook b) := by
  unfold validBook; infer_instance

/-- Payment `paymentStatus` enum of the schema. -/
def payStatusOk (s : String) : Prop :=
  s = "pending" ∨ s = "completed" ∨ s = "failed" ∨ s = "cancelled"

instance (s : String) : Decidable (payStatusOk s) := by
  unfold payStatusOk; infer_instance

/-- Full-document validation run by `payment.save()`. -/
def validPayment (p : Payment) : Prop :=
  p.studentId ≠ "" ∧ p.studentName ≠ "" ∧ payStatusOk p.paymentStatus

instance (p : Payment) : Decidable (validPayment p) := by
  unfold validPayment; infer_instance

/-- Result of one route handler: HTTP status, error message of the JSON error
envelope (if any), resulting database state, id of a created record (if any). -/
structure RouteResult where
  status : Nat
  error : Option String
  db : DB
  createdId : Option Nat
deriving DecidableEq, Repr

/-- POST /api/books.  Checks `!title || !author` (JS falsiness: the empty
string) before any trimming; then `new Book(...).save()` trims, applies the
`genre` default, runs `required` validation on the trimmed values and the
sparse-unique isbn index.  A mongoose ValidationError or duplicate-key error
is caught by the generic handler as a 500. -/
def createBook (now : Int) (title author : String) (isbn genre : Option String)
    (db : DB) : RouteResult :=
  if title = "" ∨ author = "" then
    ⟨400, some ("Title and author are required"), db, none⟩
  else
    let b : Book :=
      { title := jsTrim title
        author := jsTrim author
        isbn := isbn.map jsTrim
        genre := (genre.map jsTrim).getD ("General")
        available := .bool true
        addedDate := now }
    if validBook b then
      let ok : RouteResult :=
        ⟨201, none,
          { db with books := db.books ++ [(db.nextId, b)], nextId := db.nextId + 1 },
          some db.nextId⟩
      match b.isbn with
      | some s => if ∃ p ∈ db.books, p.2.isbn = some s then
          ⟨500, some ("duplicate key error"), db, none⟩
        else ok
      | none => ok
    else
      ⟨500, some ("ValidationError"), db, none⟩

/-- POST /api/transactions/borrow.  Looks up the book, rejects when
`book.available <= 0` under JS coercion, computes `dueDate` by
`setDate(getDate() + days)` (the destructuring default for `days` is 14),
saves the new transaction, then runs `book.available -= 1; book.save()`
(mongoose Boolean cast; a CastError or a book validation failure rejects the
save after the transaction was already persisted). -/
def borrow (now : Int) (bookId : Nat) (stu : Student) (days : Option Int)
    (db : DB) : RouteResult :=
  match findById bookId db.books with
  | none => ⟨404, some ("Book not found"), db, none⟩
  | some b =>
    if jsToNumber b.available ≤ 0 then
      ⟨400, some ("Book not available"), db, none⟩
    else
      let d := days.getD 14
      let txn : Transaction :=
        { book := bookId
          student := stu
          borrowDate := now
          dueDate := now + d * msPerDay
          returnDate := none
          status := "borrowed"
          fineAmount := 0
          finePaid := false
          finePaidDate := none
          daysLate := 0
          createdDate := now }
      if validTxn txn then
        let db1 : DB :=
          { db with transactions := db.transactions ++ [(db.nextId, txn)],
                    nextId := db.nextId + 1 }
        match mongooseBoolCast (jsToNumber b.available - 1) with
        | .error e => ⟨500, some e, db1, some db.nextId⟩
        | .ok v =>
          if validBook b then
            ⟨200, none,
              { db1 with books := updateAssoc db1.books bookId { b with available := v } },
              some db.nextId⟩
          else ⟨500, some ("ValidationError"), db1, some db.nextId⟩
      else ⟨500, some ("ValidationError"), db, none⟩

/-- POST /api/transactions/return/:id.  Loads the transaction with its book
populated (a dangling book reference makes the `required` book path null, so
`transaction.save()` rejects with a ValidationError before any write), sets
returnDate / daysLate / fineAmount / status from
`Math.max(0, Math.floor((returnDate - dueDate) / 86400000))`, saves the
transaction, then runs `Book.findByIdAndUpdate(book, { $inc: { available: 1 } })`
whose failure (for example `$inc` on a Boolean field) is caught as a 500 after
the transaction was already persisted. -/
def returnBook (now : Int) (tid : Nat) (db : DB) : RouteResult :=
  match findById tid db.transactions with
  | none => ⟨404, some ("Transaction not found"), db, none⟩
  | some t =>
    match findById t.book db.books with
    | none => ⟨500, some ("ValidationError"), db, none⟩
    | some b =>
      let late := max 0 (Int.fdiv (now - t.dueDate) msPerDay)
      let t2 : Transaction :=
        { t with returnDate := some now
                 daysLate := late
                 fineAmount := late * 5
                 status := if late > 0 then "returned_late" else "returned" }
      if validTxn t2 then
        let db1 : DB := { db with transactions := updateAssoc db.transactions tid t2 }
        match mongoInc b.available 1 with
        | .error e => ⟨500, some e, db1, none⟩
        | .ok v =>
          ⟨200, none,
            { db1 with books := updateAssoc db1.books t.book { b with available := v } },
            none⟩
      else ⟨500, some ("ValidationError"), db, none⟩

/-- POST /api/payments/create-upi.  Requires the transaction to exist, then
creates a pending Payment with the fixed merchant upiId; schema defaults give
paymentStatus "pending" and paymentMethod "UPI"; `payment.save()` validation
requires nonempty studentId and studentName.  The caller-supplied amount is
stored without any comparison against the transaction's fineAmount. -/
def createUpiPayment (now : Int) (transactionId : Nat) (sid sname : String)
    (amount : Int) (db : DB) : RouteResult :=
  match findById transactionId db.transactions with
  | none => ⟨404, some ("Transaction not found"), db, none⟩
  | some _ =>
    let p : Payment :=
      { transactionId := transactionId
        studentId := sid
        studentName := sname
        amount := amount
        upiId := "raitlibrary@axisbank"
        paymentStatus := "pending"
        paymentMethod := "UPI"
        utrNumber := none
        paymentDate := none
        createdDate := now }
    if validPayment p then
      ⟨200, none,
        { db with payments := db.payments ++ [(db.nextId, p)], nextId := db.nextId + 1 },
        some db.nextId⟩
    else ⟨500, some ("ValidationError"), db, none⟩

/-- Value stored in `utrNumber` by payment verification:
`utrNumber || UTR-dollar-Date.now()` — the supplied value unless it is JS-falsy
(absent or the empty string), in which case a token derived from the current
time. -/
def utrValue (utr : Option String) (now : Int) : String :=
  match utr with
  | none => "UTR" ++ toString now
  | some s => if s = "" then "UTR" ++ toString now else s

/-- POST /api/payments/verify.  Marks the payment completed, stores the UTR
value and the payment date, saves the payment, then updates the linked
transaction's finePaid / finePaidDate through `findByIdAndUpdate` (a silent
no-op when the transaction id matches nothing; update queries run no
validators).  No amount or transaction reconciliation happens. -/
def verifyPayment (now : Int) (paymentId : Nat) (utr : Option String)
    (db : DB) : RouteResult :=
  match findById paymentId db.payments with
  | none => ⟨404, some ("Payment not found"), db, none⟩
  | some p =>
    let p2 : Payment :=
      { p with paymentStatus := "completed"
               utrNumber := some (utrValue utr now)
               paymentDate := some now }
    if validPayment p2 then
      let db1 : DB := { db with payments := updateAssoc db.payments paymentId p2 }
      let db2 : DB :=
        match findById p.transactionId db1.transactions with
        | none => db1
        | some t =>
          { db1 with transactions := (updateAssoc db1.transactions p.transactionId
              { t with finePaid := true, finePaidDate := some now }) }
      ⟨200, none, db2, none⟩
    else ⟨500, some ("ValidationError"), db, none⟩

/-- PUT /api/transactions/:id/pay-fine.  Sets finePaid / finePaidDate on the
transaction and saves it; nothing else is touched and no Payment is involved. -/
def payFine (now : Int) (tid : Nat) (db : DB) : RouteResult :=
  match findById tid db.transactions with
  | none => ⟨404, some ("Transaction not found"), db, none⟩
  | some t =>
    let t2 : Transaction := { t with finePaid := true, finePaidDate := some now }
    if validTxn t2 then
      ⟨200, none, { db with transactions := updateAssoc db.transactions tid t2 }, none⟩
    else ⟨500, some ("ValidationError"), db, none⟩

/-- One request against the service, tagged with the instant it is handled. -/
inductive Op where
  | opCreateBook (now : Int) (title author : String) (isbn genre : Option String)
  | opBorrow (now : Int) (bookId : Nat) (stu : Student) (days : Option Int)
  | opReturn (now : Int) (tid : Nat)
  | opCreateUpi (now : Int) (tid : Nat) (sid sname : String) (amount : Int)
  | opVerify (now : Int) (pid : Nat) (utr : Option String)
  | opPayFine (now : Int) (tid : Nat)
deriving DecidableEq, Repr

/-- Database effect of one request. -/
def step (db : DB) : Op → DB
  | .opCreateBook now title author isbn genre => (createBook now title author isbn genre db).db
  | .opBorrow now bookId stu days => (borrow now bookId stu days db).db
  | .opReturn now tid => (returnBook now tid db).db
  | .opCreateUpi now tid sid sname amount => (createUpiPayment now tid sid sname amount db).db
  | .opVerify now pid utr => (verifyPayment now pid utr db).db
  | .opPayFine now tid => (payFine now tid db).db

/-- Database effect of a sequence of requests. -/
def run (db : DB) : List Op → DB
  | [] => db
  | op :: ops => run (step db op) ops

/-- Whether a request is a return (the only route that touches a book's
availability after a borrow). -/
def Op.isReturn : Op → Bool
  | .opReturn _ _ => true
  | _ => false

/-- The empty store the service starts from. -/
def emptyDB : DB := ⟨[], [], [], 0⟩

/-- States the service can actually reach from the empty store. -/
def Reachable (db : DB) : Prop := ∃ ops, db = run emptyDB ops

/-- Contribution of one transaction to the count of outstanding loans of a
book: 1 when it references the book and has not been returned. -/
def contrib (bid : Nat) (t : Transaction) : Nat :=
  if t.book = bid ∧ t.returnDate = none then 1 else 0

/-- Number of outstanding (not yet returned) loans of a book. -/
def countOutstanding (bid : Nat) : List (Nat × Transaction) → Nat
  | [] => 0
  | e :: rest => contrib bid e.2 + countOutstanding bid rest

/-- Every stored book's `available` value is a boolean, as the schema type
dictates. -/
def availBool (db : DB) : Prop :=
  ∀ p ∈ db.books, ∃ bb, p.2.available = BsonVal.bool bb

/-- Stored ids are below the fresh-id counter, including book references held
by transactions. -/
def idsFresh (db : DB) : Prop :=
  (∀ p ∈ db.books, p.1 < db.nextId) ∧
  (∀ p ∈ db.transactions, p.1 < db.nextId ∧ p.2.book < db.nextId)

/-- Loan bookkeeping: no book ever has more than one outstanding loan, and an
available book has none. -/
def loanInv (db : DB) : Prop :=
  ∀ bid, countOutstanding bid db.transactions ≤ 1 ∧
    (∀ b, findById bid db.books = some b → b.available = BsonVal.bool true →
      countOutstanding bid db.transactions = 0)

/-- Every stored book passes its own schema validation (createBook only
persists validated books, and no route ever invalidates one). -/
def booksValid (db : DB) : Prop := ∀ p ∈ db.books, validBook p.2

/-- Invariant maintained by every route. -/
def StoreInv (db : DB) : Prop := booksValid db ∧ availBool db ∧ idsFresh db ∧ loanInv db

/-- Sample student for concrete runs. -/
def sStu : Student := ⟨"S1", "Stu", "CS"⟩

/-- Sample available book. -/
def bk1 : Book := ⟨"Clean Code", "Martin", none, "General", .bool true, 0⟩

/-- The same book once it has been borrowed (available cast to `false`). -/
def bk0 : Book := { bk1 with available := .bool false }

/-- Sample outstanding transaction on book 0, due 14 days after epoch. -/
def txn1 : Transaction := ⟨0, sStu, 0, 1209600000, none, "borrowed", 0, false, none, 0, 0⟩

/-- Store holding one available book. -/
def dbAvail : DB := ⟨[(0, bk1)], [], [], 1⟩

/-- Store holding one borrowed book and its outstanding transaction. -/
def dbBorrowed : DB := ⟨[(0, bk0)], [(1, txn1)], [], 2⟩

/-- Sample pending payment against transaction 1. -/
def pay1 : Payment := ⟨1, "S1", "Stu", 25, "raitlibrary@axisbank", "pending", "UPI", none, none, 0⟩

/-- Store additionally holding the pending payment. -/
def dbWithPay : DB := ⟨[(0, bk0)], [(1, txn1)], [(2, pay1)], 3⟩

/-- Transaction of the worked spec scenario: due 2024-01-10T00:00Z
(epoch milliseconds 1704844800000). -/
def c1txn : Transaction := { txn1 with dueDate := 1704844800000 }

/-- Store for the worked spec scenario. -/
def c1db : DB := ⟨[(0, bk0)], [(1, c1txn)], [], 2⟩

/-- Request sequence that creates one book, for reachable-store witnesses. -/
def c10ops : List Op := [Op.opCreateBook 0 ("T") ("A") none none]


/-- A found entry is in the list. -/
theorem findById_some_mem {α : Type} {l : List (Nat × α)} {k : Nat} {v : α}
    (h : findById k l = some v) : (k, v) ∈ l := by
  induction l with
  | nil => simp [findById] at h
  | cons e rest ih =>
    simp only [findById] at h
    by_cases hk : e.1 = k
    · rw [if_pos hk] at h
      injection h with h2
      have he : (k, v) = e := by rw [← hk, ← h2]
      rw [he]
      exact List.mem_cons_self _ _
    · rw [if_neg hk] at h
      exact List.mem_cons_of_mem _ (ih h)

/-- Updating a present key makes lookup return the new value. -/
theorem findById_updateAssoc_self {α : Type} {l : List (Nat × α)} {k : Nat} {w v : α}
    (h : findById k l = some w) : findById k (updateAssoc l k v) = some v := by
  induction l with
  | nil => simp [findById] at h
  | cons e rest ih =>
    simp only [findById] at h
    simp only [updateAssoc]
    by_cases hk : e.1 = k
    · rw [if_pos hk]
      simp [findById]
    · rw [if_neg hk] at h
      rw [if_neg hk]
      simp only [findById]
      rw [if_neg hk]
      exact ih h

/-- Updating one key leaves lookups of other keys unchanged. -/
theorem findById_updateAssoc_ne {α : Type} {l : List (Nat × α)} {k k2 : Nat} {v : α}
    (hne : k2 ≠ k) : findById k (updateAssoc l k2 v) = findById k l := by
  induction l with
  | nil => rfl
  | cons e rest ih =>
    simp only [updateAssoc]
    by_cases hk : e.1 = k2
    · rw [if_pos hk]
      simp only [findById]
      rw [if_neg hne, if_neg (by rw [hk]; exact hne)]
    · rw [if_neg hk]
      simp only [findById]
      rw [ih]

/-- Lookup ignores an appended tail when the key is already present. -/
theorem findById_append_some {α : Type} {l l2 : List (Nat × α)} {k : Nat} {v : α}
    (h : findById k l = some v) : findById k (l ++ l2) = some v := by
  induction l with
  | nil => simp [findById] at h
  | cons e rest ih =>
    simp only [findById] at h
    simp only [List.cons_append, findById]
    by_cases hk : e.1 = k
    · rw [if_pos hk] at h
      rw [if_pos hk]
      exact h
    · rw [if_neg hk] at h
      rw [if_neg hk]
      exact ih h

/-- Lookup falls through to an appended tail when the key is absent. -/
theorem findById_append_none {α : Type} {l l2 : List (Nat × α)} {k : Nat}
    (h : findById k l = none) : findById k (l ++ l2) = findById k l2 := by
  induction l with
  | nil => rfl
  | cons e rest ih =>
    simp only [findById] at h
    simp only [List.cons_append, findById]
    by_cases hk : e.1 = k
    · rw [if_pos hk] at h
      exact absurd h (by simp)
    · rw [if_neg hk] at h
      rw [if_neg hk]
      exact ih h

/-- An entry of an updated list is the new entry or an old one. -/
theorem mem_updateAssoc {α : Type} {l : List (Nat × α)} {k : Nat} {v : α} {p : Nat × α}
    (h : p ∈ updateAssoc l k v) : p = (k, v) ∨ p ∈ l := by
  induction l with
  | nil => simp [updateAssoc] at h
  | cons e rest ih =>
    simp only [updateAssoc] at h
    by_cases hk : e.1 = k
    · rw [if_pos hk] at h
      rcases List.mem_cons.mp h with h1 | h2
      · exact Or.inl h1
      · exact Or.inr (List.mem_cons_of_mem _ h2)
    · rw [if_neg hk] at h
      rcases List.mem_cons.mp h with h1 | h2
      · exact Or.inr (by simp [h1])
      · rcases ih h2 with h3 | h4
        · exact Or.inl h3
        · exact Or.inr (List.mem_cons_of_mem _ h4)

/-- Outstanding-loan count over concatenation. -/
theorem countOutstanding_append (bid : Nat) (l l2 : List (Nat × Transaction)) :
    countOutstanding bid (l ++ l2) = countOutstanding bid l + countOutstanding bid l2 := by
  induction l with
  | nil => simp [countOutstanding]
  | cons e rest ih =>
    rw [List.cons_append]
    simp only [countOutstanding]
    rw [ih]
    omega

/-- Outstanding-loan count after replacing the entry of a present key. -/
theorem countOutstanding_updateAssoc (bid : Nat) {l : List (Nat × Transaction)} {k : Nat}
    {t : Transaction} (t2 : Transaction) (h : findById k l = some t) :
    countOutstanding bid (updateAssoc l k t2) + contrib bid t
      = countOutstanding bid l + contrib bid t2 := by
  induction l with
  | nil => simp [findById] at h
  | cons e rest ih =>
    simp only [findById] at h
    simp only [updateAssoc]
    by_cases hk : e.1 = k
    · rw [if_pos hk] at h
      injection h with h2
      rw [if_pos hk]
      simp only [countOutstanding, h2]
      omega
    · rw [if_neg hk] at h
      rw [if_neg hk]
      simp only [countOutstanding]
      have := ih h
      omega

/-- A book referenced by no transaction has no outstanding loans. -/
theorem countOutstanding_zero {bid : Nat} {l : List (Nat × Transaction)}
    (h : ∀ p ∈ l, p.2.book ≠ bid) : countOutstanding bid l = 0 := by
  induction l with
  | nil => rfl
  | cons e rest ih =>
    simp only [countOutstanding, contrib]
    rw [if_neg (by
      intro hc
      exact (h e (List.mem_cons_self _ _)) hc.1)]
    simpa using ih (fun p hp => h p (List.mem_cons_of_mem _ hp))

/-- Floor division of a nonpositive millisecond difference by the day length is nonpositive. -/
theorem fdiv_day_nonpos {a : Int} (h : a ≤ 0) : Int.fdiv a msPerDay ≤ 0 := by
  rw [Int.fdiv_eq_ediv _ (by norm_num [msPerDay])]
  rcases lt_or_eq_of_le h with hlt | heq
  · exact le_of_lt (Int.ediv_neg' hlt (by norm_num [msPerDay]))
  · subst heq
    simp

/-- Inserting a validated, available book with a fresh id preserves the invariant. -/
theorem inv_insertBook (db : DB) (b : Book) (hinv : StoreInv db) (hvb : validBook b)
    (hba : b.available = BsonVal.bool true) :
    StoreInv { db with books := db.books ++ [(db.nextId, b)], nextId := db.nextId + 1 } := by
  obtain ⟨hbv, hav, ⟨hbk, htx⟩, hloan⟩ := hinv
  refine ⟨?_, ?_, ⟨?_, ?_⟩, ?_⟩
  · intro p hp
    rcases List.mem_append.mp hp with h | h
    · exact hbv p h
    · simp only [List.mem_singleton] at h
      rw [h]
      exact hvb
  · intro p hp
    rcases List.mem_append.mp hp with h | h
    · exact hav p h
    · simp only [List.mem_singleton] at h
      rw [h]
      exact ⟨true, hba⟩
  · intro p hp
    rcases List.mem_append.mp hp with h | h
    · exact Nat.lt_succ_of_lt (hbk p h)
    · simp only [List.mem_singleton] at h
      rw [h]
      exact Nat.lt_succ_self _
  · intro p hp
    exact ⟨Nat.lt_succ_of_lt (htx p hp).1, Nat.lt_succ_of_lt (htx p hp).2⟩
  · intro bid
    refine ⟨(hloan bid).1, ?_⟩
    intro b2 hfind2 hb2
    cases hfb : findById bid db.books with
    | some b3 =>
      rw [findById_append_some hfb] at hfind2
      injection hfind2 with he
      subst he
      exact (hloan bid).2 _ hfb hb2
    | none =>
      rw [findById_append_none hfb] at hfind2
      simp only [findById] at hfind2
      by_cases hid : db.nextId = bid
      · exact countOutstanding_zero (fun p hp => by
          have := (htx p hp).2
          omega)
      · rw [if_neg hid] at hfind2
        exact absurd hfind2 (by simp)

/-- POST /api/books preserves the store invariant. -/
theorem inv_createBook (db : DB) (now : Int) (title author : String) (isbn genre : Option String)
    (hinv : StoreInv db) : StoreInv (createBook now title author isbn genre db).db := by
  simp only [createBook]
  by_cases h1 : title = "" ∨ author = ""
  · rw [if_pos h1]
    exact hinv
  · rw [if_neg h1]
    cases isbn with
    | none =>
      simp only [Option.map_none']
      by_cases hv : validBook ⟨jsTrim title, jsTrim author, none,
          (genre.map jsTrim).getD ("General"), BsonVal.bool true, now⟩
      · rw [if_pos hv]
        exact inv_insertBook db _ hinv hv rfl
      · rw [if_neg hv]
        exact hinv
    | some s0 =>
      simp only [Option.map_some']
      by_cases hv : validBook ⟨jsTrim title, jsTrim author, some (jsTrim s0),
          (genre.map jsTrim).getD ("General"), BsonVal.bool true, now⟩
      · rw [if_pos hv]
        by_cases hdup : ∃ p ∈ db.books, p.2.isbn = some (jsTrim s0)
        · rw [if_pos hdup]
          exact hinv
        · rw [if_neg hdup]
          exact inv_insertBook db _ hinv hv rfl
      · rw [if_neg hv]
        exact hinv

/-- The successful borrow write (new transaction plus availability flip) preserves the invariant. -/
theorem inv_borrowSuccess (db : DB) (bookId : Nat) (b : Book) (txn : Transaction)
    (hinv : StoreInv db)
    (hfind : findById bookId db.books = some b)
    (hbtrue : b.available = BsonVal.bool true)
    (htb : txn.book = bookId) (htr : txn.returnDate = none) :
    StoreInv { books := updateAssoc db.books bookId { b with available := BsonVal.bool false },
               transactions := db.transactions ++ [(db.nextId, txn)],
               payments := db.payments,
               nextId := db.nextId + 1 } := by
  obtain ⟨hbv, hav, ⟨hbk, htx⟩, hloan⟩ := hinv
  have hbid : bookId < db.nextId := hbk (bookId, b) (findById_some_mem hfind)
  have hcount : ∀ bid, countOutstanding bid (db.transactions ++ [(db.nextId, txn)])
      = countOutstanding bid db.transactions + contrib bid txn := by
    intro bid
    rw [countOutstanding_append]
    simp [countOutstanding]
  refine ⟨?_, ?_, ⟨?_, ?_⟩, ?_⟩
  · intro p hp
    rcases mem_updateAssoc hp with h | h
    · rw [h]
      exact hbv (bookId, b) (findById_some_mem hfind)
    · exact hbv p h
  · intro p hp
    rcases mem_updateAssoc hp with h | h
    · rw [h]
      exact ⟨false, rfl⟩
    · exact hav p h
  · intro p hp
    rcases mem_updateAssoc hp with h | h
    · rw [h]
      exact Nat.lt_succ_of_lt hbid
    · exact Nat.lt_succ_of_lt (hbk p h)
  · intro p hp
    rcases List.mem_append.mp hp with h | h
    · exact ⟨Nat.lt_succ_of_lt (htx p h).1, Nat.lt_succ_of_lt (htx p h).2⟩
    · simp only [List.mem_singleton] at h
      rw [h]
      refine ⟨Nat.lt_succ_self _, ?_⟩
      rw [htb]
      exact Nat.lt_succ_of_lt hbid
  · intro bid
    have hc0 : countOutstanding bid db.transactions ≤ 1 := (hloan bid).1
    by_cases hbidq : bookId = bid
    · subst hbidq
      have hzero : countOutstanding bookId db.transactions = 0 :=
        (hloan bookId).2 b hfind hbtrue
      have hcontrib : contrib bookId txn = 1 := by
        simp [contrib, htb, htr]
      refine ⟨?_, ?_⟩
      · rw [hcount, hzero, hcontrib]
      · intro b2 hfind2 hb2
        rw [findById_updateAssoc_self hfind] at hfind2
        injection hfind2 with he
        rw [← he] at hb2
        simp at hb2
    · have hcontrib : contrib bid txn = 0 := by
        simp [contrib, htb]
        intro hc
        exact absurd hc hbidq
      refine ⟨?_, ?_⟩
      · rw [hcount, hcontrib]
        omega
      · intro b2 hfind2 hb2
        rw [findById_updateAssoc_ne hbidq] at hfind2
        rw [hcount, hcontrib]
        rw [(hloan bid).2 b2 hfind2 hb2]

/-- POST /api/transactions/borrow preserves the store invariant. -/
theorem inv_borrow (db : DB) (now : Int) (bookId : Nat) (stu : Student) (days : Option Int)
    (hinv : StoreInv db) : StoreInv (borrow now bookId stu days db).db := by
  cases hfind : findById bookId db.books with
  | none =>
    simp only [borrow, hfind]
    exact hinv
  | some b =>
    simp only [borrow, hfind]
    obtain ⟨hbv, hav, hfresh, hloan⟩ := hinv
    by_cases hle : jsToNumber b.available ≤ 0
    · rw [if_pos hle]
      exact ⟨hbv, hav, hfresh, hloan⟩
    · rw [if_neg hle]
      obtain ⟨bb, hbb⟩ := hav (bookId, b) (findById_some_mem hfind)
      have hbtrue : b.available = BsonVal.bool true := by
        cases bb
        · rw [hbb] at hle
          simp [jsToNumber] at hle
        · exact hbb
      have hvb : validBook b := hbv (bookId, b) (findById_some_mem hfind)
      have hcast : mongooseBoolCast (jsToNumber b.available - 1) = .ok (BsonVal.bool false) := by
        rw [hbtrue]
        simp [jsToNumber, mongooseBoolCast]
      by_cases hvt : validTxn ⟨bookId, stu, now, now + (days.getD 14) * msPerDay, none,
          "borrowed", 0, false, none, 0, now⟩
      · rw [if_pos hvt]
        simp only [hcast]
        rw [if_pos hvb]
        exact inv_borrowSuccess db bookId b _ ⟨hbv, hav, hfresh, hloan⟩ hfind hbtrue rfl rfl
      · rw [if_neg hvt]
        exact ⟨hbv, hav, hfresh, hloan⟩

/-- Replacing a stored transaction without raising its outstanding-loan contribution preserves the invariant. -/
theorem inv_txnsUpdate (db : DB) (tid : Nat) (t t2 : Transaction)
    (hinv : StoreInv db)
    (hfind : findById tid db.transactions = some t)
    (hbook : t2.book = t.book)
    (hcontrib : ∀ bid, contrib bid t2 ≤ contrib bid t) :
    StoreInv { db with transactions := updateAssoc db.transactions tid t2 } := by
  obtain ⟨hbv, hav, ⟨hbk, htx⟩, hloan⟩ := hinv
  have hmem := findById_some_mem hfind
  refine ⟨hbv, hav, ⟨hbk, ?_⟩, ?_⟩
  · intro p hp
    rcases mem_updateAssoc hp with h | h
    · rw [h]
      refine ⟨(htx (tid, t) hmem).1, ?_⟩
      rw [hbook]
      exact (htx (tid, t) hmem).2
    · exact htx p h
  · intro bid
    have heq := countOutstanding_updateAssoc bid t2 hfind
    have hle : countOutstanding bid (updateAssoc db.transactions tid t2)
        ≤ countOutstanding bid db.transactions := by
      have := hcontrib bid
      omega
    refine ⟨le_trans hle (hloan bid).1, ?_⟩
    intro b2 hfind2 hb2
    have hz : countOutstanding bid db.transactions = 0 := (hloan bid).2 b2 hfind2 hb2
    have h2 : countOutstanding bid (updateAssoc db.transactions tid t2) = 0 := by omega
    exact h2

/-- POST /api/transactions/return preserves the store invariant (under the invariant the availability `$inc` always fails, so books are untouched). -/
theorem inv_returnBook (db : DB) (now : Int) (tid : Nat) (hinv : StoreInv db) :
    StoreInv (returnBook now tid db).db := by
  cases hft : findById tid db.transactions with
  | none =>
    simp only [returnBook, hft]
    exact hinv
  | some t =>
    cases hfb : findById t.book db.books with
    | none =>
      simp only [returnBook, hft, hfb]
      exact hinv
    | some b =>
      simp only [returnBook, hft, hfb]
      obtain ⟨bb, hbb⟩ := hinv.2.1 (t.book, b) (findById_some_mem hfb)
      have hinc : mongoInc b.available 1
          = .error ("Cannot apply $inc to a value of non-numeric type") := by
        rw [hbb]
        rfl
      by_cases hvt : validTxn { t with
          returnDate := some now
          daysLate := max 0 (Int.fdiv (now - t.dueDate) msPerDay)
          fineAmount := max 0 (Int.fdiv (now - t.dueDate) msPerDay) * 5
          status := if max 0 (Int.fdiv (now - t.dueDate) msPerDay) > 0
            then "returned_late" else "returned" }
      · rw [if_pos hvt]
        simp only [hinc]
        exact inv_txnsUpdate db tid t _ hinv hft rfl (fun bid => by simp [contrib])
      · rw [if_neg hvt]
        exact hinv

/-- PUT /api/transactions/:id/pay-fine preserves the store invariant. -/
theorem inv_payFine (db : DB) (now : Int) (tid : Nat) (hinv : StoreInv db) :
    StoreInv (payFine now tid db).db := by
  cases hft : findById tid db.transactions with
  | none =>
    simp only [payFine, hft]
    exact hinv
  | some t =>
    simp only [payFine, hft]
    by_cases hvt : validTxn { t with finePaid := true, finePaidDate := some now }
    · rw [if_pos hvt]
      exact inv_txnsUpdate db tid t _ hinv hft rfl (fun bid => le_of_eq rfl)
    · rw [if_neg hvt]
      exact hinv

/-- POST /api/payments/create-upi preserves the store invariant. -/
theorem inv_createUpi (db : DB) (now : Int) (tid : Nat) (sid sname : String)
    (amount : Int) (hinv : StoreInv db) :
    StoreInv (createUpiPayment now tid sid sname amount db).db := by
  cases hft : findById tid db.transactions with
  | none =>
    simp only [createUpiPayment, hft]
    exact hinv
  | some t =>
    simp only [createUpiPayment, hft]
    obtain ⟨hbv, hav, ⟨hbk, htx⟩, hloan⟩ := hinv
    by_cases hvp : validPayment ⟨tid, sid, sname, amount, "raitlibrary@axisbank",
        "pending", "UPI", none, none, now⟩
    · rw [if_pos hvp]
      refine ⟨hbv, hav, ⟨?_, ?_⟩, hloan⟩
      · intro p hp
        exact Nat.lt_succ_of_lt (hbk p hp)
      · intro p hp
        exact ⟨Nat.lt_succ_of_lt (htx p hp).1, Nat.lt_succ_of_lt (htx p hp).2⟩
    · rw [if_neg hvp]
      exact ⟨hbv, hav, ⟨hbk, htx⟩, hloan⟩

/-- POST /api/payments/verify preserves the store invariant. -/
theorem inv_verifyPayment (db : DB) (now : Int) (pid : Nat) (utr : Option String)
    (hinv : StoreInv db) : StoreInv (verifyPayment now pid utr db).db := by
  cases hfp : findById pid db.payments with
  | none =>
    simp only [verifyPayment, hfp]
    exact hinv
  | some p =>
    simp only [verifyPayment, hfp]
    by_cases hvp : validPayment { p with
        paymentStatus := "completed"
        utrNumber := some (utrValue utr now)
        paymentDate := some now }
    · rw [if_pos hvp]
      cases hft : findById p.transactionId db.transactions with
      | none =>
        simp only [hft]
        exact hinv
      | some t =>
        simp only [hft]
        have hdb1 : StoreInv { db with payments := (updateAssoc db.payments pid { p with
            paymentStatus := "completed"
            utrNumber := some (utrValue utr now)
            paymentDate := some now }) } := hinv
        exact inv_txnsUpdate _ p.transactionId t _ hdb1 hft rfl (fun bid => le_of_eq rfl)
    · rw [if_neg hvp]
      exact hinv

/-- Every request preserves the store invariant. -/
theorem inv_step (db : DB) (op : Op) (hinv : StoreInv db) : StoreInv (step db op) := by
  cases op with
  | opCreateBook now title author isbn genre => exact inv_createBook db now title author isbn genre hinv
  | opBorrow now bookId stu days => exact inv_borrow db now bookId stu days hinv
  | opReturn now tid => exact inv_returnBook db now tid hinv
  | opCreateUpi now tid sid sname amount => exact inv_createUpi db now tid sid sname amount hinv
  | opVerify now pid utr => exact inv_verifyPayment db now pid utr hinv
  | opPayFine now tid => exact inv_payFine db now tid hinv

/-- Request sequences preserve the store invariant. -/
theorem inv_run (db : DB) (ops : List Op) (hinv : StoreInv db) : StoreInv (run db ops) := by
  induction ops generalizing db with
  | nil => exact hinv
  | cons op rest ih => exact ih (step db op) (inv_step db op hinv)

/-- The empty store satisfies the invariant. -/
theorem inv_emptyDB : StoreInv emptyDB := by
  refine ⟨?_, ?_, ⟨?_, ?_⟩, ?_⟩
  · intro p hp
    exact absurd hp (List.not_mem_nil p)
  · intro p hp
    exact absurd hp (List.not_mem_nil p)
  · intro p hp
    exact absurd hp (List.not_mem_nil p)
  · intro p hp
    exact absurd hp (List.not_mem_nil p)
  · intro bid
    exact ⟨Nat.zero_le 1, fun b2 hf _ => by simp [findById, emptyDB] at hf⟩

/-- Every reachable store satisfies the invariant. -/
theorem reachable_inv (db : DB) (h : Reachable db) : StoreInv db := by
  obtain ⟨ops, hops⟩ := h
  rw [hops]
  exact inv_run emptyDB ops inv_emptyDB

/-- Borrowing a book whose availability coerces to a non-positive number hits
the `book.available <= 0` guard: 400, "Book not available", store untouched. -/
theorem borrow_on_false_helper (db : DB) (now : Int) (bookId : Nat) (stu : Student)
    (days : Option Int) (b : Book)
    (hb : findById bookId db.books = some b)
    (hav : jsToNumber b.available ≤ 0) :
    borrow now bookId stu days db = ⟨400, some ("Book not available"), db, none⟩ := by
  simp only [borrow, hb]
  rw [if_pos hav]

/-- Full characterisation of a return whose transaction and book exist and whose
book availability is a boolean (the only reachable shape): the transaction is
rewritten with the recomputed fine fields, but the `$inc` on the Boolean
`available` field fails, so the route answers 500 and the books are untouched. -/
theorem returnBook_bool_book (db : DB) (now : Int) (tid : Nat) (t : Transaction)
    (b : Book) (bb : Bool)
    (ht : findById tid db.transactions = some t)
    (hstu : validStudent t.student)
    (hb : findById t.book db.books = some b)
    (hbb : b.available = BsonVal.bool bb) :
    returnBook now tid db = ⟨500, some ("Cannot apply $inc to a value of non-numeric type"),
      { db with transactions := (updateAssoc db.transactions tid { t with
          returnDate := some now
          daysLate := max 0 (Int.fdiv (now - t.dueDate) msPerDay)
          fineAmount := max 0 (Int.fdiv (now - t.dueDate) msPerDay) * 5
          status := if max 0 (Int.fdiv (now - t.dueDate) msPerDay) > 0
            then "returned_late" else "returned" }) }, none⟩ := by
  simp only [returnBook, ht, hb]
  have hvt : validTxn { t with
      returnDate := some now
      daysLate := max 0 (Int.fdiv (now - t.dueDate) msPerDay)
      fineAmount := max 0 (Int.fdiv (now - t.dueDate) msPerDay) * 5
      status := if max 0 (Int.fdiv (now - t.dueDate) msPerDay) > 0
        then "returned_late" else "returned" } := by
    refine ⟨hstu, ?_⟩
    by_cases hc : max 0 (Int.fdiv (now - t.dueDate) msPerDay) > 0
    · rw [if_pos hc]
      right; right; right; rfl
    · rw [if_neg hc]
      right; left; rfl
  rw [if_pos hvt]
  rw [hbb]
  rfl

/-- C3: for every borrow request naming an existing book whose availability is
non-positive under the JS coercion of `book.available <= 0` (for the Boolean
schema value: `available = false`), the operation fails with 400
"Book not available" and the store is unchanged — no transaction is created
and no book field is modified. -/
theorem borrow_unavailable_rejected (db : DB) (now : Int) (bookId : Nat) (stu : Student)
    (days : Option Int) (b : Book)
    (hb : findById bookId db.books = some b)
    (hav : jsToNumber b.available ≤ 0) :
    (borrow now bookId stu days db).status = 400 ∧
    (borrow now bookId stu days db).error = some ("Book not available") ∧
    (borrow now bookId stu days db).db = db := by
  rw [borrow_on_false_helper db now bookId stu days b hb hav]
  exact ⟨rfl, rfl, rfl⟩

/-- Witness for C3 on the concrete store with one borrowed (unavailable) book. -/
theorem borrow_unavailable_rejected_witness :
    (borrow 5 0 sStu none dbBorrowed).status = 400 ∧
    (borrow 5 0 sStu none dbBorrowed).error = some ("Book not available") ∧
    (borrow 5 0 sStu none dbBorrowed).db = dbBorrowed :=
  borrow_unavailable_rejected dbBorrowed 5 0 sStu none bk0 (by decide) (by decide)

/-- C1: returning any existing transaction (valid student subdocument, book
reference present) persists returnDate = now,
daysLate = max(0, floor((returnDate - dueDate) / msPerDay)),
fineAmount = daysLate * 5, and status "returned_late" exactly when
daysLate > 0, else "returned". -/
theorem return_sets_fine_fields (db : DB) (now : Int) (tid : Nat) (t : Transaction) (b : Book)
    (ht : findById tid db.transactions = some t)
    (hstu : validStudent t.student)
    (hb : findById t.book db.books = some b) :
    findById tid (returnBook now tid db).db.transactions
      = some { t with
          returnDate := some now
          daysLate := max 0 (Int.fdiv (now - t.dueDate) msPerDay)
          fineAmount := max 0 (Int.fdiv (now - t.dueDate) msPerDay) * 5
          status := if max 0 (Int.fdiv (now - t.dueDate) msPerDay) > 0
            then "returned_late" else "returned" } := by
  simp only [returnBook, ht, hb]
  have hvt : validTxn { t with
      returnDate := some now
      daysLate := max 0 (Int.fdiv (now - t.dueDate) msPerDay)
      fineAmount := max 0 (Int.fdiv (now - t.dueDate) msPerDay) * 5
      status := if max 0 (Int.fdiv (now - t.dueDate) msPerDay) > 0
        then "returned_late" else "returned" } := by
    refine ⟨hstu, ?_⟩
    by_cases hc : max 0 (Int.fdiv (now - t.dueDate) msPerDay) > 0
    · rw [if_pos hc]
      right; right; right; rfl
    · rw [if_neg hc]
      right; left; rfl
  rw [if_pos hvt]
  cases hinc : mongoInc b.available 1 with
  | error e =>
    simp only [hinc]
    exact findById_updateAssoc_self ht
  | ok v =>
    simp only [hinc]
    exact findById_updateAssoc_self ht

/-- Witness for C1: the spec scenario — due 2024-01-10T00:00Z, returned
2024-01-15T00:00Z gives daysLate 5, fineAmount 25, status "returned_late". -/
theorem return_sets_fine_fields_witness :
    findById 1 (returnBook 1705276800000 1 c1db).db.transactions
      = some { c1txn with
          returnDate := some 1705276800000
          daysLate := 5
          fineAmount := 25
          status := "returned_late" } := by
  have h := return_sets_fine_fields c1db 1705276800000 1 c1txn bk0 (by decide) (by decide) (by decide)
  rw [h]
  decide

/-- Full characterisation of a successful borrow: the guard passes for an
available (boolean true) book, the transaction is persisted, and the book is
saved with availability cast to boolean false. -/
theorem borrow_success_eq (db : DB) (now : Int) (bookId : Nat) (stu : Student)
    (days : Option Int) (b : Book)
    (hb : findById bookId db.books = some b)
    (hav : b.available = BsonVal.bool true)
    (hvb : validBook b)
    (hstu : validStudent stu) :
    borrow now bookId stu days db = ⟨200, none,
      { books := (updateAssoc db.books bookId { b with available := BsonVal.bool false })
        transactions := db.transactions ++ [(db.nextId,
          ⟨bookId, stu, now, now + (days.getD 14) * msPerDay, none, "borrowed",
           0, false, none, 0, now⟩)]
        payments := db.payments
        nextId := db.nextId + 1 }, some db.nextId⟩ := by
  have hle : ¬ jsToNumber b.available ≤ 0 := by
    rw [hav]
    decide
  have hcast : mongooseBoolCast (jsToNumber b.available - 1) = .ok (BsonVal.bool false) := by
    rw [hav]
    rfl
  simp only [borrow, hb]
  rw [if_neg hle]
  rw [if_pos (show validTxn ⟨bookId, stu, now, now + (days.getD 14) * msPerDay, none,
      "borrowed", 0, false, none, 0, now⟩ from ⟨hstu, Or.inl rfl⟩)]
  simp only [hcast]
  rw [if_pos hvb]

/-- C2: a valid borrow request (book exists, is available, student subdocument
well formed, stored book valid) succeeds with 200; the created transaction has
borrowDate = now, dueDate = borrowDate + days * msPerDay (days defaulting
to 14), status "borrowed", fineAmount 0, finePaid false; and the book's
availability decreases by exactly one under the JS numeric coercion
(true, i.e. 1, becomes false, i.e. 0). -/
theorem borrow_creates_transaction (db : DB) (now : Int) (bookId : Nat) (stu : Student)
    (days : Option Int) (b : Book)
    (hb : findById bookId db.books = some b)
    (hav : b.available = BsonVal.bool true)
    (hvb : validBook b)
    (hstu : validStudent stu) :
    (borrow now bookId stu days db).status = 200 ∧
    (borrow now bookId stu days db).db.transactions
      = db.transactions ++ [(db.nextId,
          ⟨bookId, stu, now, now + (days.getD 14) * msPerDay, none, "borrowed",
           0, false, none, 0, now⟩)] ∧
    findById bookId (borrow now bookId stu days db).db.books
      = some { b with available := BsonVal.bool false } ∧
    jsToNumber ({ b with available := BsonVal.bool false } : Book).available
      = jsToNumber b.available - 1 ∧
    (borrow now bookId stu days db).db.payments = db.payments := by
  rw [borrow_success_eq db now bookId stu days b hb hav hvb hstu]
  refine ⟨rfl, rfl, ?_, ?_, rfl⟩
  · exact findById_updateAssoc_self hb
  · rw [hav]
    rfl

/-- Witness for C2 on the concrete store with one available book. -/
theorem borrow_creates_transaction_witness :
    (borrow 0 0 sStu none dbAvail).status = 200 ∧
    (borrow 0 0 sStu none dbAvail).db.transactions
      = dbAvail.transactions ++ [(dbAvail.nextId,
          ⟨0, sStu, 0, 0 + ((none : Option Int).getD 14) * msPerDay, none, "borrowed",
           0, false, none, 0, 0⟩)] ∧
    findById 0 (borrow 0 0 sStu none dbAvail).db.books
      = some { bk1 with available := BsonVal.bool false } ∧
    jsToNumber ({ bk1 with available := BsonVal.bool false } : Book).available
      = jsToNumber bk1.available - 1 ∧
    (borrow 0 0 sStu none dbAvail).db.payments = dbAvail.payments :=
  borrow_creates_transaction dbAvail 0 0 sStu none bk1 (by decide) (by decide)
    (by decide) (by decide)

/-- Full characterisation of pay-fine on an existing valid transaction. -/
theorem pay_fine_eq (db : DB) (now : Int) (tid : Nat) (t : Transaction)
    (ht : findById tid db.transactions = some t)
    (hv : validTxn t) :
    payFine now tid db = ⟨200, none, { db with transactions :=
      (updateAssoc db.transactions tid
        { t with finePaid := true, finePaidDate := some now }) }, none⟩ := by
  simp only [payFine, ht]
  rw [if_pos (show validTxn { t with finePaid := true, finePaidDate := some now } from hv)]

/-- C7: for every existing (schema-valid) transaction, pay-fine answers 200 and
sets finePaid = true and finePaidDate = now; every other field of the
transaction is unchanged, other transactions are unchanged, and the books and
payments collections are untouched (no Payment is created or modified). -/
theorem pay_fine_frame (db : DB) (now : Int) (tid : Nat) (t : Transaction)
    (ht : findById tid db.transactions = some t)
    (hv : validTxn t) :
    (payFine now tid db).status = 200 ∧
    findById tid (payFine now tid db).db.transactions
      = some { t with finePaid := true, finePaidDate := some now } ∧
    (∀ k, k ≠ tid → findById k (payFine now tid db).db.transactions
      = findById k db.transactions) ∧
    (payFine now tid db).db.books = db.books ∧
    (payFine now tid db).db.payments = db.payments ∧
    ({ t with finePaid := true, finePaidDate := some now } : Transaction).status = t.status ∧
    ({ t with finePaid := true, finePaidDate := some now } : Transaction).fineAmount = t.fineAmount ∧
    ({ t with finePaid := true, finePaidDate := some now } : Transaction).daysLate = t.daysLate ∧
    ({ t with finePaid := true, finePaidDate := some now } : Transaction).returnDate = t.returnDate ∧
    ({ t with finePaid := true, finePaidDate := some now } : Transaction).borrowDate = t.borrowDate ∧
    ({ t with finePaid := true, finePaidDate := some now } : Transaction).dueDate = t.dueDate ∧
    ({ t with finePaid := true, finePaidDate := some now } : Transaction).book = t.book ∧
    ({ t with finePaid := true, finePaidDate := some now } : Transaction).student = t.student := by
  rw [pay_fine_eq db now tid t ht hv]
  refine ⟨rfl, ?_, ?_, rfl, rfl, rfl, rfl, rfl, rfl, rfl, rfl, rfl, rfl⟩
  · exact findById_updateAssoc_self ht
  · intro k hk
    exact findById_updateAssoc_ne (fun he => hk he.symm)

/-- Witness for C7 on the concrete store with one outstanding transaction. -/
theorem pay_fine_frame_witness :
    (payFine 7 1 dbBorrowed).status = 200 ∧
    findById 1 (payFine 7 1 dbBorrowed).db.transactions
      = some { txn1 with finePaid := true, finePaidDate := some 7 } ∧
    (∀ k, k ≠ 1 → findById k (payFine 7 1 dbBorrowed).db.transactions
      = findById k dbBorrowed.transactions) ∧
    (payFine 7 1 dbBorrowed).db.books = dbBorrowed.books ∧
    (payFine 7 1 dbBorrowed).db.payments = dbBorrowed.payments ∧
    ({ txn1 with finePaid := true, finePaidDate := some 7 } : Transaction).status = txn1.status ∧
    ({ txn1 with finePaid := true, finePaidDate := some 7 } : Transaction).fineAmount = txn1.fineAmount ∧
    ({ txn1 with finePaid := true, finePaidDate := some 7 } : Transaction).daysLate = txn1.daysLate ∧
    ({ txn1 with finePaid := true, finePaidDate := some 7 } : Transaction).returnDate = txn1.returnDate ∧
    ({ txn1 with finePaid := true, finePaidDate := some 7 } : Transaction).borrowDate = txn1.borrowDate ∧
    ({ txn1 with finePaid := true, finePaidDate := some 7 } : Transaction).dueDate = txn1.dueDate ∧
    ({ txn1 with finePaid := true, finePaidDate := some 7 } : Transaction).book = txn1.book ∧
    ({ txn1 with finePaid := true, finePaidDate := some 7 } : Transaction).student = txn1.student :=
  pay_fine_frame dbBorrowed 7 1 txn1 (by decide) (by decide)

/-- C8: a payment-creation request whose transaction exists (and whose student
fields are nonempty, as the schema requires) creates a Payment with
paymentStatus "pending", the fixed merchant upiId, paymentMethod "UPI" and the
caller-supplied amount stored with no comparison against the transaction's
fineAmount; when the transaction does not exist the route answers 404 and
creates nothing. -/
theorem create_upi_payment_spec (db : DB) (now : Int) (tid : Nat) (sid sname : String)
    (amount : Int) (hsid : sid ≠ "") (hsname : sname ≠ "") :
    (∀ t, findById tid db.transactions = some t →
      (createUpiPayment now tid sid sname amount db).status = 200 ∧
      (createUpiPayment now tid sid sname amount db).db.payments
        = db.payments ++ [(db.nextId, ⟨tid, sid, sname, amount, "raitlibrary@axisbank",
            "pending", "UPI", none, none, now⟩)] ∧
      (createUpiPayment now tid sid sname amount db).db.transactions = db.transactions ∧
      (createUpiPayment now tid sid sname amount db).db.books = db.books) ∧
    (findById tid db.transactions = none →
      (createUpiPayment now tid sid sname amount db).status = 404 ∧
      (createUpiPayment now tid sid sname amount db).error = some ("Transaction not found") ∧
      (createUpiPayment now tid sid sname amount db).db = db) := by
  constructor
  · intro t ht
    have hres : createUpiPayment now tid sid sname amount db = ⟨200, none,
        { db with
          payments := db.payments ++ [(db.nextId, ⟨tid, sid, sname, amount,
            "raitlibrary@axisbank", "pending", "UPI", none, none, now⟩)]
          nextId := db.nextId + 1 }, some db.nextId⟩ := by
      simp only [createUpiPayment, ht]
      rw [if_pos (show validPayment ⟨tid, sid, sname, amount, "raitlibrary@axisbank",
          "pending", "UPI", none, none, now⟩ from ⟨hsid, hsname, Or.inl rfl⟩)]
    rw [hres]
    exact ⟨rfl, rfl, rfl, rfl⟩
  · intro ht
    have hres : createUpiPayment now tid sid sname amount db
        = ⟨404, some ("Transaction not found"), db, none⟩ := by
      simp only [createUpiPayment, ht]
    rw [hres]
    exact ⟨rfl, rfl, rfl⟩

/-- Witness for C8: the existing-transaction branch on the concrete store. -/
theorem create_upi_payment_spec_witness :
    (createUpiPayment 3 1 ("S1") ("Stu") 25 dbBorrowed).status = 200 ∧
    (createUpiPayment 3 1 ("S1") ("Stu") 25 dbBorrowed).db.payments
      = dbBorrowed.payments ++ [(dbBorrowed.nextId, ⟨1, "S1", "Stu", 25, "raitlibrary@axisbank",
          "pending", "UPI", none, none, 3⟩)] ∧
    (createUpiPayment 3 1 ("S1") ("Stu") 25 dbBorrowed).db.transactions = dbBorrowed.transactions ∧
    (createUpiPayment 3 1 ("S1") ("Stu") 25 dbBorrowed).db.books = dbBorrowed.books :=
  (create_upi_payment_spec dbBorrowed 3 1 ("S1") ("Stu") 25 (by decide) (by decide)).1
    txn1 (by decide)

/-- Full characterisation of verifying an existing payment whose linked
transaction exists. -/
theorem verify_payment_eq (db : DB) (now : Int) (pid : Nat) (utr : Option String)
    (p : Payment) (t : Transaction)
    (hp : findById pid db.payments = some p)
    (hsid : p.studentId ≠ "") (hsname : p.studentName ≠ "")
    (ht : findById p.transactionId db.transactions = some t) :
    verifyPayment now pid utr db = ⟨200, none,
      { db with
        payments := (updateAssoc db.payments pid { p with
          paymentStatus := "completed"
          utrNumber := some (utrValue utr now)
          paymentDate := some now })
        transactions := (updateAssoc db.transactions p.transactionId
          { t with finePaid := true, finePaidDate := some now }) }, none⟩ := by
  simp only [verifyPayment, hp]
  rw [if_pos (show validPayment { p with
      paymentStatus := "completed"
      utrNumber := some (utrValue utr now)
      paymentDate := some now } from ⟨hsid, hsname, Or.inr (Or.inl rfl)⟩)]
  simp only [ht]

/-- C6: verifying any existing payment (nonempty student fields, linked
transaction present) answers 200, marks the payment completed with
paymentDate = now and utrNumber equal to the supplied value or, when that is
absent or empty, the generated time-derived token; and it sets the linked
transaction's finePaid = true and finePaidDate = now — with no hypothesis
relating the payment amount to the transaction's fineAmount. -/
theorem verify_payment_effects (db : DB) (now : Int) (pid : Nat) (utr : Option String)
    (p : Payment) (t : Transaction)
    (hp : findById pid db.payments = some p)
    (hsid : p.studentId ≠ "") (hsname : p.studentName ≠ "")
    (ht : findById p.transactionId db.transactions = some t) :
    (verifyPayment now pid utr db).status = 200 ∧
    findById pid (verifyPayment now pid utr db).db.payments
      = some { p with
          paymentStatus := "completed"
          utrNumber := some (utrValue utr now)
          paymentDate := some now } ∧
    findById p.transactionId (verifyPayment now pid utr db).db.transactions
      = some { t with finePaid := true, finePaidDate := some now } := by
  rw [verify_payment_eq db now pid utr p t hp hsid hsname ht]
  refine ⟨rfl, ?_, ?_⟩
  · exact findById_updateAssoc_self hp
  · exact findById_updateAssoc_self ht

/-- Witness for C6 on the concrete store with a pending payment. -/
theorem verify_payment_effects_witness :
    (verifyPayment 7 2 none dbWithPay).status = 200 ∧
    findById 2 (verifyPayment 7 2 none dbWithPay).db.payments
      = some { pay1 with
          paymentStatus := "completed"
          utrNumber := some (utrValue none 7)
          paymentDate := some 7 } ∧
    findById pay1.transactionId (verifyPayment 7 2 none dbWithPay).db.transactions
      = some { txn1 with finePaid := true, finePaidDate := some 7 } :=
  verify_payment_effects dbWithPay 7 2 none pay1 txn1 (by decide) (by decide) (by decide)
    (by decide)

/-- C9 (amended): a book-creation request with an absent or empty (JS-falsy)
title or author fails with 400 and persists nothing, while a request whose
title or author is nonempty but whitespace-only passes the handler's
`!title || !author` check, is trimmed by the schema, fails the mongoose
`required` validator on save, and therefore answers 500 (the ValidationError
falls into the generic catch) — still persisting nothing. -/
theorem create_book_validation (db : DB) (now : Int) (title author : String)
    (isbn genre : Option String) :
    ((title = "" ∨ author = "") →
      (createBook now title author isbn genre db).status = 400 ∧
      (createBook now title author isbn genre db).error
        = some ("Title and author are required") ∧
      (createBook now title author isbn genre db).db = db) ∧
    ((title ≠ "" ∧ author ≠ "" ∧ (jsTrim title = "" ∨ jsTrim author = "")) →
      (createBook now title author isbn genre db).status = 500 ∧
      (createBook now title author isbn genre db).error = some ("ValidationError") ∧
      (createBook now title author isbn genre db).db = db) := by
  constructor
  · intro h1
    have hres : createBook now title author isbn genre db
        = ⟨400, some ("Title and author are required"), db, none⟩ := by
      simp only [createBook]
      rw [if_pos h1]
    rw [hres]
    exact ⟨rfl, rfl, rfl⟩
  · rintro ⟨h1, h2, h3⟩
    have hnv : ¬ validBook ⟨jsTrim title, jsTrim author, isbn.map jsTrim,
        (genre.map jsTrim).getD ("General"), BsonVal.bool true, now⟩ := by
      intro hv
      rcases h3 with h | h
      · exact hv.1 h
      · exact hv.2 h
    have hres : createBook now title author isbn genre db
        = ⟨500, some ("ValidationError"), db, none⟩ := by
      simp only [createBook]
      rw [if_neg (show ¬ (title = "" ∨ author = "") from fun hc => hc.elim h1 h2)]
      rw [if_neg hnv]
    rw [hres]
    exact ⟨rfl, rfl, rfl⟩

/-- Counterexample to C9 as stated: the request with title "A" and
whitespace-only author "   " is missing the author after trimming, yet the
route answers 500, not the claimed 400, because only the untrimmed falsiness
check guards the 400 path. -/
theorem create_book_counterexample :
    (createBook 0 ("A") ("   ") none none dbAvail).status = 500 ∧
    ¬ (createBook 0 ("A") ("   ") none none dbAvail).status = 400 ∧
    jsTrim ("   ") = "" ∧
    (createBook 0 ("A") ("   ") none none dbAvail).db = dbAvail := by
  decide

/-- Witness for the amended C9: both failure modes at concrete inputs. -/
theorem create_book_validation_witness :
    ((createBook 0 ("") ("B") none none dbAvail).status = 400 ∧
      (createBook 0 ("") ("B") none none dbAvail).error
        = some ("Title and author are required") ∧
      (createBook 0 ("") ("B") none none dbAvail).db = dbAvail) ∧
    ((createBook 0 ("A") ("   ") none none dbAvail).status = 500 ∧
      (createBook 0 ("A") ("   ") none none dbAvail).error = some ("ValidationError") ∧
      (createBook 0 ("A") ("   ") none none dbAvail).db = dbAvail) :=
  ⟨(create_book_validation dbAvail 0 ("") ("B") none none).1 (Or.inl rfl),
   (create_book_validation dbAvail 0 ("A") ("   ") none none).2
     ⟨by decide, by decide, Or.inr (by decide)⟩⟩

/-- C4 (code bug evaluation at the failing input): borrow the one available
book at time 0, return it at time 0 (no delay).  The transaction is persisted
with fineAmount 0 and status "returned" as the spec says, but the book's
availability is not restored to its pre-borrow value: the `$inc` on the
Boolean `available` field fails, the return answers 500, and the book stays
unavailable (`false`) although it was available (`true`) before the borrow. -/
theorem round_trip_availability_bug :
    (borrow 0 0 sStu none dbAvail).status = 200 ∧
    bk1.available = BsonVal.bool true ∧
    findById 1 (returnBook 0 1 (borrow 0 0 sStu none dbAvail).db).db.transactions
      = some { txn1 with returnDate := some 0, status := "returned" } ∧
    (returnBook 0 1 (borrow 0 0 sStu none dbAvail).db).status = 500 ∧
    (returnBook 0 1 (borrow 0 0 sStu none dbAvail).db).error
      = some ("Cannot apply $inc to a value of non-numeric type") ∧
    (findById 0 (returnBook 0 1 (borrow 0 0 sStu none dbAvail).db).db.books).map Book.available
      = some (BsonVal.bool false) := by
  decide

/-- C5 (amended): calling return twice on the same transaction recomputes
daysLate and fineAmount both times from the stale stored dueDate against each
call's current time and overwrites the transaction, but neither call succeeds:
each answers 500 at the book-availability `$inc` (the `available` field is a
Boolean), and the book's availability is never incremented. -/
theorem double_return_amended (db : DB) (now1 now2 : Int) (tid : Nat)
    (t : Transaction) (b : Book) (bb : Bool)
    (ht : findById tid db.transactions = some t)
    (hstu : validStudent t.student)
    (hb : findById t.book db.books = some b)
    (hbb : b.available = BsonVal.bool bb) :
    (returnBook now1 tid db).status = 500 ∧
    (returnBook now2 tid (returnBook now1 tid db).db).status = 500 ∧
    findById tid (returnBook now2 tid (returnBook now1 tid db).db).db.transactions
      = some { t with
          returnDate := some now2
          daysLate := max 0 (Int.fdiv (now2 - t.dueDate) msPerDay)
          fineAmount := max 0 (Int.fdiv (now2 - t.dueDate) msPerDay) * 5
          status := if max 0 (Int.fdiv (now2 - t.dueDate) msPerDay) > 0
            then "returned_late" else "returned" } ∧
    findById t.book (returnBook now2 tid (returnBook now1 tid db).db).db.books = some b := by
  have h1 := returnBook_bool_book db now1 tid t b bb ht hstu hb hbb
  rw [h1]
  have ht2 : findById tid (updateAssoc db.transactions tid { t with
      returnDate := some now1
      daysLate := max 0 (Int.fdiv (now1 - t.dueDate) msPerDay)
      fineAmount := max 0 (Int.fdiv (now1 - t.dueDate) msPerDay) * 5
      status := if max 0 (Int.fdiv (now1 - t.dueDate) msPerDay) > 0
        then "returned_late" else "returned" }) = some { t with
      returnDate := some now1
      daysLate := max 0 (Int.fdiv (now1 - t.dueDate) msPerDay)
      fineAmount := max 0 (Int.fdiv (now1 - t.dueDate) msPerDay) * 5
      status := if max 0 (Int.fdiv (now1 - t.dueDate) msPerDay) > 0
        then "returned_late" else "returned" } :=
    findById_updateAssoc_self ht
  have h2 := returnBook_bool_book { db with transactions := (updateAssoc db.transactions tid
      { t with
        returnDate := some now1
        daysLate := max 0 (Int.fdiv (now1 - t.dueDate) msPerDay)
        fineAmount := max 0 (Int.fdiv (now1 - t.dueDate) msPerDay) * 5
        status := if max 0 (Int.fdiv (now1 - t.dueDate) msPerDay) > 0
          then "returned_late" else "returned" }) } now2 tid _ b bb ht2 hstu hb hbb
  rw [h2]
  refine ⟨rfl, rfl, ?_, hb⟩
  exact findById_updateAssoc_self ht2

/-- Counterexample to C5 as stated: on the concrete borrowed store the first
return does not succeed (it answers 500, not 200), and after two returns the
book's availability has not been incremented at all — it is still the boolean
`false`, not a number raised twice. -/
theorem double_return_counterexample :
    ¬ ((returnBook 5 1 dbBorrowed).status = 200) ∧
    (returnBook 5 1 dbBorrowed).status = 500 ∧
    (findById 0 (returnBook 10 1 (returnBook 5 1 dbBorrowed).db).db.books).map Book.available
      = some (BsonVal.bool false) := by
  decide

/-- Witness for the amended C5 on the concrete borrowed store. -/
theorem double_return_amended_witness :
    (returnBook 5 1 dbBorrowed).status = 500 ∧
    (returnBook 10 1 (returnBook 5 1 dbBorrowed).db).status = 500 ∧
    findById 1 (returnBook 10 1 (returnBook 5 1 dbBorrowed).db).db.transactions
      = some { txn1 with
          returnDate := some 10
          daysLate := max 0 (Int.fdiv (10 - txn1.dueDate) msPerDay)
          fineAmount := max 0 (Int.fdiv (10 - txn1.dueDate) msPerDay) * 5
          status := if max 0 (Int.fdiv (10 - txn1.dueDate) msPerDay) > 0
            then "returned_late" else "returned" } ∧
    findById txn1.book (returnBook 10 1 (returnBook 5 1 dbBorrowed).db).db.books = some bk0 :=
  double_return_amended dbBorrowed 5 10 1 txn1 bk0 false (by decide) (by decide)
    (by decide) (by decide)

/-- Creating a book never disturbs the stored entry of an existing book id. -/
theorem createBook_books_preserved (db : DB) (now : Int) (title author : String)
    (isbn genre : Option String) (bookId : Nat) (b : Book)
    (hb : findById bookId db.books = some b) :
    findById bookId (createBook now title author isbn genre db).db.books = some b := by
  simp only [createBook]
  by_cases h1 : title = "" ∨ author = ""
  · rw [if_pos h1]
    exact hb
  · rw [if_neg h1]
    cases isbn with
    | none =>
      simp only [Option.map_none']
      by_cases hv : validBook ⟨jsTrim title, jsTrim author, none,
          (genre.map jsTrim).getD ("General"), BsonVal.bool true, now⟩
      · rw [if_pos hv]
        exact findById_append_some hb
      · rw [if_neg hv]
        exact hb
    | some s0 =>
      simp only [Option.map_some']
      by_cases hv : validBook ⟨jsTrim title, jsTrim author, some (jsTrim s0),
          (genre.map jsTrim).getD ("General"), BsonVal.bool true, now⟩
      · rw [if_pos hv]
        by_cases hdup : ∃ p ∈ db.books, p.2.isbn = some (jsTrim s0)
        · rw [if_pos hdup]
          exact hb
        · rw [if_neg hdup]
          exact findById_append_some hb
      · rw [if_neg hv]
        exact hb

/-- Borrowing any book never disturbs the stored entry of a book whose
availability is already `false` (a borrow of that very book fails the guard). -/
theorem borrow_books_preserved (db : DB) (now : Int) (bookId2 : Nat) (stu : Student)
    (days : Option Int) (bookId : Nat) (b : Book)
    (hb : findById bookId db.books = some b)
    (hav : b.available = BsonVal.bool false) :
    findById bookId (borrow now bookId2 stu days db).db.books = some b := by
  cases hfb : findById bookId2 db.books with
  | none =>
    simp only [borrow, hfb]
    exact hb
  | some b2 =>
    simp only [borrow, hfb]
    by_cases hle : jsToNumber b2.available ≤ 0
    · rw [if_pos hle]
      exact hb
    · rw [if_neg hle]
      by_cases hvt : validTxn ⟨bookId2, stu, now, now + (days.getD 14) * msPerDay, none,
          "borrowed", 0, false, none, 0, now⟩
      · rw [if_pos hvt]
        cases hcast : mongooseBoolCast (jsToNumber b2.available - 1) with
        | error e =>
          simp only [hcast]
          exact hb
        | ok v =>
          simp only [hcast]
          by_cases hvb : validBook b2
          · rw [if_pos hvb]
            have hne : bookId2 ≠ bookId := by
              intro he
              subst he
              rw [hfb] at hb
              injection hb with he2
              rw [← he2] at hav
              rw [hav] at hle
              exact hle (by decide)
            rw [findById_updateAssoc_ne hne]
            exact hb
          · rw [if_neg hvb]
            exact hb
      · rw [if_neg hvt]
        exact hb

/-- Creating a payment never changes the books collection. -/
theorem createUpi_books_eq (db : DB) (now : Int) (tid : Nat) (sid sname : String)
    (amount : Int) :
    (createUpiPayment now tid sid sname amount db).db.books = db.books := by
  cases hft : findById tid db.transactions with
  | none =>
    simp only [createUpiPayment, hft]
  | some t =>
    simp only [createUpiPayment, hft]
    by_cases hv : validPayment ⟨tid, sid, sname, amount, "raitlibrary@axisbank",
        "pending", "UPI", none, none, now⟩
    · rw [if_pos hv]
    · rw [if_neg hv]

/-- Verifying a payment never changes the books collection. -/
theorem verify_books_eq (db : DB) (now : Int) (pid : Nat) (utr : Option String) :
    (verifyPayment now pid utr db).db.books = db.books := by
  cases hfp : findById pid db.payments with
  | none =>
    simp only [verifyPayment, hfp]
  | some p =>
    simp only [verifyPayment, hfp]
    by_cases hvp : validPayment { p with
        paymentStatus := "completed"
        utrNumber := some (utrValue utr now)
        paymentDate := some now }
    · rw [if_pos hvp]
      cases hft : findById p.transactionId db.transactions with
      | none => simp only [hft]
      | some t => simp only [hft]
    · rw [if_neg hvp]

/-- Paying a fine never changes the books collection. -/
theorem payFine_books_eq (db : DB) (now : Int) (tid : Nat) :
    (payFine now tid db).db.books = db.books := by
  cases hft : findById tid db.transactions with
  | none =>
    simp only [payFine, hft]
  | some t =>
    simp only [payFine, hft]
    by_cases hv : validTxn { t with finePaid := true, finePaidDate := some now }
    · rw [if_pos hv]
    · rw [if_neg hv]

/-- A book left unavailable stays stored unchanged across any non-return
request. -/
theorem step_preserves_unavailable (db : DB) (bookId : Nat) (b : Book) (op : Op)
    (hb : findById bookId db.books = some b)
    (hav : b.available = BsonVal.bool false)
    (hop : op.isReturn = false) :
    findById bookId (step db op).books = some b := by
  cases op with
  | opCreateBook now title author isbn genre =>
    exact createBook_books_preserved db now title author isbn genre bookId b hb
  | opBorrow now bookId2 stu days =>
    exact borrow_books_preserved db now bookId2 stu days bookId b hb hav
  | opReturn now tid =>
    simp [Op.isReturn] at hop
  | opCreateUpi now tid sid sname amount =>
    show findById bookId (createUpiPayment now tid sid sname amount db).db.books = some b
    rw [createUpi_books_eq]
    exact hb
  | opVerify now pid utr =>
    show findById bookId (verifyPayment now pid utr db).db.books = some b
    rw [verify_books_eq]
    exact hb
  | opPayFine now tid =>
    show findById bookId (payFine now tid db).db.books = some b
    rw [payFine_books_eq]
    exact hb

/-- A book left unavailable stays stored unchanged across any return-free
request sequence. -/
theorem run_preserves_unavailable (bookId : Nat) (b : Book)
    (hav : b.available = BsonVal.bool false) :
    ∀ (ops : List Op) (db : DB), findById bookId db.books = some b →
      (∀ op ∈ ops, op.isReturn = false) →
      findById bookId (run db ops).books = some b := by
  intro ops
  induction ops with
  | nil =>
    intro db hb _
    exact hb
  | cons op rest ih =>
    intro db hb hops
    exact ih (step db op)
      (step_preserves_unavailable db bookId b op hb hav (hops op (List.mem_cons_self _ _)))
      (fun o ho => hops o (List.mem_cons_of_mem _ ho))

/-- A borrow that answers 200 on a reachable store found a book with boolean
`true` availability and stored it back with boolean `false` availability. -/
theorem borrow_success_helper (db : DB) (now : Int) (bookId : Nat) (stu : Student)
    (days : Option Int) (hinv : StoreInv db)
    (h200 : (borrow now bookId stu days db).status = 200) :
    ∃ b, findById bookId db.books = some b ∧ b.available = BsonVal.bool true ∧
      findById bookId (borrow now bookId stu days db).db.books
        = some { b with available := BsonVal.bool false } := by
  cases hfb : findById bookId db.books with
  | none =>
    rw [show borrow now bookId stu days db = ⟨404, some ("Book not found"), db, none⟩ from by
      simp only [borrow, hfb]] at h200
    simp at h200
  | some b =>
    obtain ⟨bb, hbb⟩ := hinv.2.1 (bookId, b) (findById_some_mem hfb)
    cases bb with
    | false =>
      rw [borrow_on_false_helper db now bookId stu days b hfb (by rw [hbb]; decide)] at h200
      simp at h200
    | true =>
      have hvb : validBook b := hinv.1 (bookId, b) (findById_some_mem hfb)
      by_cases hstu : validStudent stu
      · refine ⟨b, rfl, hbb, ?_⟩
        rw [borrow_success_eq db now bookId stu days b hfb hbb hvb hstu]
        exact findById_updateAssoc_self hfb
      · have hres : borrow now bookId stu days db = ⟨500, some ("ValidationError"), db, none⟩ := by
          simp only [borrow, hfb]
          rw [if_neg (show ¬ jsToNumber b.available ≤ 0 from by rw [hbb]; decide)]
          rw [if_neg (show ¬ validTxn ⟨bookId, stu, now, now + (days.getD 14) * msPerDay, none,
              "borrowed", 0, false, none, 0, now⟩ from fun hv => hstu hv.1)]
        rw [hres] at h200
        simp at h200

/-- C10: on every reachable store, no book ever has more than one outstanding
loan; a successful borrow leaves the book's single Boolean availability flag
`false`, and any later borrow of the same book fails with 400
"Book not available" (leaving the store unchanged) as long as no return has
been issued — so at most one loan per book is outstanding at any time. -/
theorem borrow_single_loan_invariant (db : DB) (h : Reachable db) (now : Int) (bookId : Nat)
    (stu : Student) (days : Option Int) :
    (∀ bid, countOutstanding bid db.transactions ≤ 1) ∧
    ((borrow now bookId stu days db).status = 200 →
      (findById bookId (borrow now bookId stu days db).db.books).map Book.available
        = some (BsonVal.bool false) ∧
      (∀ ops, (∀ op ∈ ops, op.isReturn = false) →
        ∀ now2 stu2 days2,
          borrow now2 bookId stu2 days2 (run (borrow now bookId stu days db).db ops)
            = ⟨400, some ("Book not available"),
                run (borrow now bookId stu days db).db ops, none⟩)) := by
  have hinv := reachable_inv db h
  refine ⟨fun bid => (hinv.2.2.2 bid).1, ?_⟩
  intro h200
  obtain ⟨b, hfb, hbtrue, hafter⟩ := borrow_success_helper db now bookId stu days hinv h200
  refine ⟨by rw [hafter]; rfl, ?_⟩
  intro ops hops now2 stu2 days2
  have hrun := run_preserves_unavailable bookId { b with available := BsonVal.bool false }
    rfl ops (borrow now bookId stu days db).db hafter hops
  exact borrow_on_false_helper _ now2 bookId stu2 days2 _ hrun (le_refl 0)

/-- Witness for C10 on the reachable one-book store. -/
theorem borrow_single_loan_invariant_witness :
    (∀ bid, countOutstanding bid (run emptyDB c10ops).transactions ≤ 1) ∧
    ((borrow 1 0 sStu none (run emptyDB c10ops)).status = 200 →
      (findById 0 (borrow 1 0 sStu none (run emptyDB c10ops)).db.books).map Book.available
        = some (BsonVal.bool false) ∧
      (∀ ops, (∀ op ∈ ops, op.isReturn = false) →
        ∀ now2 stu2 days2,
          borrow now2 0 stu2 days2 (run (borrow 1 0 sStu none (run emptyDB c10ops)).db ops)
            = ⟨400, some ("Book not available"),
                run (borrow 1 0 sStu none (run emptyDB c10ops)).db ops, none⟩)) :=
  borrow_single_loan_invariant (run emptyDB c10ops) ⟨c10ops, rfl⟩ 1 0 sStu none
